import Mathlib

/-!
Verification of `observable.go` (package catchall): a key-addressable
observer registry with three operations, `Observe`, `Notify` and the
constructor `NewConcurrentObservable`, plus a `PlainKey` string adapter
for the `Key` (= `fmt.Stringer`) interface.

Modelling choices, all read off the Go source:

* A Go channel is a fresh heap object for every `make(chan bool)`.  We
  model a channel as a `GoChan` carrying an allocation identity `id`
  (the runtime never returns the same object twice, modelled with a
  fresh-id counter `nextChan` in the registry state) and its buffer
  capacity `cap` (`make(chan bool)` allocates capacity 0).
* The observer map `map[string][]chan bool` is modelled as a total
  function `String → List GoChan`; a key that was never assigned reads
  as `[]`, exactly as a missing key of a Go map reads as the zero value
  `nil` of the slice type and `append(nil, c)` creates `[c]`.
* `Observe` and `Notify` have value receivers, so the two locks are
  copied into each call; the map itself is a reference and is shared.
  The sequential (one call at a time) semantics of the shared map is
  given by `Observe`/`Notify` below.  The consequences of the copied
  `ObserverLock` under concurrency are modelled separately by
  `racyObservePair`, and the consequences of the goroutine closure in
  `Notify` capturing the shared loop variable (Go loop semantics before
  1.22, which govern this 2020 module) are modelled by `sendTargets`.
* A `ConcurrentObservable` literal that did not come from the
  constructor has a nil `observers` map.  The model
  `ConcurrentObservableGo` makes the possible nil-ness of the map
  explicit (`Option`); reading a nil map yields the zero value, while
  assigning into a nil map panics, modelled as `none`.  `Observe` and
  `Notify` above are the restriction of `ObserveGo`/`NotifyGo` to
  registries whose map is non-nil, which is every registry the package
  itself can produce (see `zero_value_registry_behavior`).
-/

/-- A Go channel value: allocation identity plus buffer capacity. -/
structure GoChan where
  id : Nat
  cap : Nat
deriving DecidableEq

/-- `make(chan bool)`: allocate a fresh unbuffered channel (capacity 0);
`fresh` is the allocation identity handed out by the runtime. -/
def makeChan (fresh : Nat) : GoChan := ⟨fresh, 0⟩

/-- `type Key fmt.Stringer`: any type with a `String()` method. -/
class Stringer (α : Type) where
  str : α → String

/-- `PlainKey is a box for plain strings so that they may be used as Key type.` -/
structure PlainKey where
  Text : String
deriving DecidableEq

/-- `func (pk PlainKey) String() string { return pk.Text }` -/
def PlainKey.String (pk : PlainKey) : String := pk.Text

instance : Stringer PlainKey := ⟨PlainKey.String⟩

/-- `func NewPlainKey(s string) PlainKey { return PlainKey{Text:s} }` -/
def NewPlainKey (s : String) : PlainKey := ⟨s⟩

@[simp] theorem stringer_str_plainKey (s : String) :
    Stringer.str (PlainKey.mk s) = s := rfl

/-- The registry.  The two `sync` locks carry no observable state in the
sequential model (and `DataLock` is never used by the primitive at all),
so they are modelled as `Unit` fields; `observers` is the shared map and
`nextChan` is the fresh-allocation counter of the channel runtime. -/
structure ConcurrentObservable where
  DataLock : Unit
  ObserverLock : Unit
  observers : String → List GoChan
  nextChan : Nat

/-- `func NewConcurrentObservable() ConcurrentObservable`: empty map. -/
def NewConcurrentObservable : ConcurrentObservable :=
  ⟨(), (), fun _ => [], 0⟩

/-- `func (l ConcurrentObservable) Observe(k Key) chan bool`:
make a fresh channel, append it to the slice at `k.String()`
(`append` on the missing-key zero value `nil` creates the slice), and
return it.  Returns the channel together with the post-state of the
shared map. -/
def Observe {α : Type} [Stringer α] (l : ConcurrentObservable) (k : α) :
    GoChan × ConcurrentObservable :=
  let observer := makeChan l.nextChan
  let key := Stringer.str k
  (observer,
    ⟨l.DataLock, l.ObserverLock,
     fun s => if s = key then l.observers s ++ [observer] else l.observers s,
     l.nextChan + 1⟩)

/-- `func (l ConcurrentObservable) Notify(k Key)`:
range over `l.observers[k.String()]`, spawning per iteration one
goroutine that performs one blocking send of `true`.  The registry state
is untouched; the returned list is the slice the loop ranges over (one
spawned send per element). -/
def Notify {α : Type} [Stringer α] (l : ConcurrentObservable) (k : α) :
    List GoChan × ConcurrentObservable :=
  (l.observers (Stringer.str k), l)

@[simp] theorem Observe_fst {α : Type} [Stringer α]
    (l : ConcurrentObservable) (k : α) :
    (Observe l k).1 = makeChan l.nextChan := rfl

theorem Observe_snd_observers {α : Type} [Stringer α]
    (l : ConcurrentObservable) (k : α) (t : String) :
    (Observe l k).2.observers t
      = if t = Stringer.str k
          then l.observers t ++ [makeChan l.nextChan]
          else l.observers t := rfl

@[simp] theorem Observe_snd_nextChan {α : Type} [Stringer α]
    (l : ConcurrentObservable) (k : α) :
    (Observe l k).2.nextChan = l.nextChan + 1 := rfl

@[simp] theorem Notify_fst {α : Type} [Stringer α]
    (l : ConcurrentObservable) (k : α) :
    (Notify l k).1 = l.observers (Stringer.str k) := rfl

@[simp] theorem Notify_snd {α : Type} [Stringer α]
    (l : ConcurrentObservable) (k : α) :
    (Notify l k).2 = l := rfl

/-- The delivery targets of the goroutines spawned by one `Notify` call,
under Go loop semantics before 1.22 (which govern this 2020 module): the
`range` statement declares a single variable `observer` shared by all
iterations, and the spawned closure `func() { observer <- true }` reads
that shared variable only when the goroutine itself runs.  `cs` is the
slice the loop ranges over; `r i` is the loop-iteration position at
which goroutine `i` performs its read, which is at least `i` (the
goroutine is spawned at iteration `i`) and yields the last element once
the loop has finished.  Goroutine `i` therefore sends `true` to
`cs[min (max (r i) i) (cs.length - 1)]`.  The schedule `r i = i`
(each goroutine reads before the loop advances) is the intended one. -/
def sendTargets (cs : List GoChan) (r : Nat → Nat) : List GoChan :=
  (List.range cs.length).map fun i =>
    cs.getD (min (max (r i) i) (cs.length - 1)) (makeChan 0)

/-- Two `Observe` calls executing concurrently on the same registry with
the same rendered key text.  Because `Observe` has a value receiver,
each call locks a private copy of `ObserverLock`, so their bodies are
not mutually excluded and interleave on the shared map.  This definition
executes the interleaving read₁, read₂, write₁, write₂ of the statement
`l.observers[key] = append(l.observers[key], observer)`: both calls read
the same original slice, then each writes back its own one-element
extension, the second write overwriting the first. -/
def racyObservePair (l : ConcurrentObservable) (key : String) :
    GoChan × GoChan × ConcurrentObservable :=
  let c1 := makeChan l.nextChan
  let c2 := makeChan (l.nextChan + 1)
  let old := l.observers key
  let afterT1 := fun s => if s = key then old ++ [c1] else l.observers s
  let afterT2 := fun s => if s = key then old ++ [c2] else afterT1 s
  (c1, c2, ⟨l.DataLock, l.ObserverLock, afterT2, l.nextChan + 2⟩)

/-- Registry model in which the `observers` map may be nil (`none`), as
it is in the zero value of `ConcurrentObservable`. -/
structure ConcurrentObservableGo where
  DataLock : Unit
  ObserverLock : Unit
  observers : Option (String → List GoChan)
  nextChan : Nat

/-- The zero value `ConcurrentObservable{}`: a nil observers map. -/
def zeroConcurrentObservableGo : ConcurrentObservableGo := ⟨(), (), none, 0⟩

/-- Reading `m[key]` on a Go map: a nil map reads as the zero value. -/
def goMapRead (m : Option (String → List GoChan)) (key : String) :
    List GoChan :=
  match m with
  | none => []
  | some f => f key

/-- `Observe` on the possibly-nil-map registry: assigning to an entry of
a nil map is a runtime panic, modelled as `none`. -/
def ObserveGo {α : Type} [Stringer α] (l : ConcurrentObservableGo) (k : α) :
    Option (GoChan × ConcurrentObservableGo) :=
  match l.observers with
  | none => none
  | some f =>
    let observer := makeChan l.nextChan
    let key := Stringer.str k
    some (observer,
      ⟨l.DataLock, l.ObserverLock,
       some (fun s => if s = key then f s ++ [observer] else f s),
       l.nextChan + 1⟩)

/-- `Notify` on the possibly-nil-map registry: ranging over the zero
value read from a nil map is an empty loop, no panic. -/
def NotifyGo {α : Type} [Stringer α] (l : ConcurrentObservableGo) (k : α) :
    List GoChan × ConcurrentObservableGo :=
  (goMapRead l.observers (Stringer.str k), l)

/-- The constructor in the possibly-nil-map model: a non-nil empty map. -/
def NewConcurrentObservableGo : ConcurrentObservableGo :=
  ⟨(), (), some (fun _ => []), 0⟩

/-- One step of a sequential trace of calls against one registry, each
call identified by the rendered text of its key (the only thing either
operation reads from the key). -/
inductive Op where
  | observe (key : String)
  | notify (key : String)
deriving DecidableEq

/-- Sequential execution of a list of `Observe`/`Notify` calls starting
from registry `l`.  Returns the final registry together with the list of
(rendered key text, returned channel) pairs of the `Observe` calls, in
call order. -/
def runTrace : ConcurrentObservable → List Op → ConcurrentObservable × List (String × GoChan)
  | l, [] => (l, [])
  | l, Op.observe key :: ops =>
    let step := Observe l (PlainKey.mk key)
    let rest := runTrace step.2 ops
    (rest.1, (key, step.1) :: rest.2)
  | l, Op.notify key :: ops => runTrace (Notify l (PlainKey.mk key)).2 ops

/-- Claim C9: the plain-text key adapter renders itself unchanged:
`PlainKey` built from `s` directly or via `NewPlainKey` has `String()`
equal to `s`, as a pure function. -/
theorem plainKey_renders_identity (s : String) :
    PlainKey.String (PlainKey.mk s) = s
  ∧ PlainKey.String (NewPlainKey s) = s
  ∧ Stringer.str (PlainKey.mk s) = s :=
  ⟨rfl, rfl, rfl⟩

/-- Claim C7: no operation removes a channel: `Notify` leaves the whole
registry (in particular every map entry) unchanged, and `Observe`
changes only the entry for its key's rendered text, by appending the one
returned channel, leaving every other entry unchanged. -/
theorem registry_frame_conditions {α β : Type} [Stringer α] [Stringer β]
    (l : ConcurrentObservable) (ka : α) (kb : β) :
    (Notify l ka).2 = l
  ∧ (∀ t, (Observe l kb).2.observers t
        = l.observers t
          ++ (if t = Stringer.str kb then [(Observe l kb).1] else [])) := by
  refine ⟨rfl, fun t => ?_⟩
  rw [Observe_snd_observers, Observe_fst]
  by_cases h : t = Stringer.str kb <;> simp [h]

/-- Claim C8: `Notify` on a key with zero registered channels spawns no
sends (under any schedule) and leaves the registry unchanged. -/
theorem notify_without_subscribers_is_noop {α : Type} [Stringer α]
    (l : ConcurrentObservable) (k : α)
    (h : l.observers (Stringer.str k) = []) :
    (Notify l k).1 = []
  ∧ (Notify l k).2 = l
  ∧ (∀ r, sendTargets (Notify l k).1 r = []) := by
  refine ⟨by rw [Notify_fst, h], rfl, fun r => ?_⟩
  rw [Notify_fst, h]
  rfl

/-- Witness for `notify_without_subscribers_is_noop` at the fresh
registry and key `"x"`. -/
theorem notify_without_subscribers_is_noop_witness :
    NewConcurrentObservable.observers (Stringer.str (PlainKey.mk "x")) = []
  ∧ (Notify NewConcurrentObservable (PlainKey.mk "x")).1 = [] :=
  ⟨rfl,
   (notify_without_subscribers_is_noop NewConcurrentObservable
     (PlainKey.mk "x") rfl).1⟩

/-- Claim C10: on the zero value of `ConcurrentObservable` (nil
observers map), `Notify` completes as a no-op without panic, while
`Observe` panics on the nil-map assignment; any registry whose map is
non-nil — in particular one built by `NewConcurrentObservable` — makes
`Observe` succeed, and on such registries `ObserveGo` agrees with the
total model `Observe`. -/
theorem zero_value_registry_behavior {α : Type} [Stringer α] (k : α) :
    NotifyGo zeroConcurrentObservableGo k = ([], zeroConcurrentObservableGo)
  ∧ ObserveGo zeroConcurrentObservableGo k = none
  ∧ (ObserveGo NewConcurrentObservableGo k).isSome = true
  ∧ (∀ f n, (ObserveGo (⟨(), (), some f, n⟩ : ConcurrentObservableGo) k).isSome = true)
  ∧ (∀ f n, ObserveGo (⟨(), (), some f, n⟩ : ConcurrentObservableGo) k
       = some ((Observe (⟨(), (), f, n⟩ : ConcurrentObservable) k).1,
           ⟨(), (), some ((Observe (⟨(), (), f, n⟩ : ConcurrentObservable) k).2.observers),
            (Observe (⟨(), (), f, n⟩ : ConcurrentObservable) k).2.nextChan⟩)) := by
  exact ⟨rfl, rfl, rfl, fun f n => rfl, fun f n => rfl⟩

theorem runTrace_observers_eq (ops : List Op) :
    ∀ (l : ConcurrentObservable) (t : String),
      (runTrace l ops).1.observers t
        = l.observers t
          ++ (runTrace l ops).2.filterMap
              (fun p => if p.1 = t then some p.2 else none) := by
  induction ops with
  | nil => intro l t; simp [runTrace]
  | cons op ops ih =>
    intro l t
    cases op with
    | observe key =>
      have h := ih (Observe l (PlainKey.mk key)).2 t
      have hobs := Observe_snd_observers l (PlainKey.mk key) t
      by_cases hk : key = t
      · subst hk
        simp [runTrace, h, hobs, List.filterMap_cons]
      · have hk2 : ¬ t = key := fun hE => hk hE.symm
        simp [runTrace, h, hobs, List.filterMap_cons, hk, hk2]
    | notify key =>
      simpa [runTrace] using ih l t

theorem runTrace_nextChan_le (ops : List Op) :
    ∀ l : ConcurrentObservable, l.nextChan ≤ (runTrace l ops).1.nextChan := by
  induction ops with
  | nil => intro l; simp [runTrace]
  | cons op ops ih =>
    intro l
    cases op with
    | observe key =>
      have h := ih (Observe l (PlainKey.mk key)).2
      simp only [Observe_snd_nextChan] at h
      simp only [runTrace]
      omega
    | notify key => simpa [runTrace] using ih l

theorem runTrace_events_id_bounds (ops : List Op) :
    ∀ l : ConcurrentObservable, ∀ p ∈ (runTrace l ops).2,
      l.nextChan ≤ p.2.id ∧ p.2.id < (runTrace l ops).1.nextChan := by
  induction ops with
  | nil => intro l p hp; simp [runTrace] at hp
  | cons op ops ih =>
    intro l p hp
    cases op with
    | observe key =>
      simp only [runTrace, List.mem_cons] at hp
      have hle := runTrace_nextChan_le ops (Observe l (PlainKey.mk key)).2
      simp only [Observe_snd_nextChan] at hle
      rcases hp with hp | hp
      · subst hp
        simp only [runTrace, Observe_fst, makeChan]
        omega
      · have h := ih (Observe l (PlainKey.mk key)).2 p hp
        simp only [Observe_snd_nextChan] at h
        simp only [runTrace]
        omega
    | notify key =>
      simp only [runTrace] at hp ⊢
      have h := ih (Notify l (PlainKey.mk key)).2 p hp
      simpa using h

theorem runTrace_events_pairwise (ops : List Op) :
    ∀ l : ConcurrentObservable,
      ((runTrace l ops).2).Pairwise (fun p q => p.2.id < q.2.id) := by
  induction ops with
  | nil => intro l; simp [runTrace]
  | cons op ops ih =>
    intro l
    cases op with
    | observe key =>
      simp only [runTrace, List.pairwise_cons]
      refine ⟨fun q hq => ?_, ih (Observe l (PlainKey.mk key)).2⟩
      have h := runTrace_events_id_bounds ops (Observe l (PlainKey.mk key)).2 q hq
      simp only [Observe_snd_nextChan] at h
      simp only [Observe_fst, makeChan]
      omega
    | notify key =>
      simpa [runTrace] using ih (Notify l (PlainKey.mk key)).2

theorem runTrace_channels_nodup (ops : List Op) (l : ConcurrentObservable) :
    (((runTrace l ops).2).map (fun p => p.2)).Nodup := by
  have hp := runTrace_events_pairwise ops l
  rw [List.Nodup, List.pairwise_map]
  refine hp.imp ?_
  intro p q hlt hEq
  rw [hEq] at hlt
  exact lt_irrefl _ hlt

theorem mem_observers_mem_events (ops : List Op) (t : String) (c : GoChan)
    (h : c ∈ (runTrace NewConcurrentObservable ops).1.observers t) :
    (t, c) ∈ (runTrace NewConcurrentObservable ops).2 := by
  rw [runTrace_observers_eq] at h
  have hinit : NewConcurrentObservable.observers t = [] := rfl
  rw [hinit, List.nil_append, List.mem_filterMap] at h
  rcases h with ⟨p, hp, hpc⟩
  by_cases h1 : p.1 = t
  · rw [if_pos h1] at hpc
    have : p = (t, c) := by
      cases p
      simp only [Option.some.injEq] at hpc
      simp_all
    rw [this] at hp
    exact hp
  · rw [if_neg h1] at hpc
    cases hpc

theorem mem_events_mem_observers (ops : List Op) (t : String) (c : GoChan)
    (h : (t, c) ∈ (runTrace NewConcurrentObservable ops).2) :
    c ∈ (runTrace NewConcurrentObservable ops).1.observers t := by
  rw [runTrace_observers_eq]
  have hinit : NewConcurrentObservable.observers t = [] := rfl
  rw [hinit, List.nil_append, List.mem_filterMap]
  exact ⟨(t, c), h, by simp⟩

theorem sendTargets_mem (cs : List GoChan) (r : Nat → Nat) :
    ∀ c ∈ sendTargets cs r, c ∈ cs := by
  intro c hc
  unfold sendTargets at hc
  rcases List.mem_map.mp hc with ⟨i, hi, hEq⟩
  have hilt : i < cs.length := List.mem_range.mp hi
  have hlt : min (max (r i) i) (cs.length - 1) < cs.length := by
    have hmin : min (max (r i) i) (cs.length - 1) ≤ cs.length - 1 :=
      Nat.min_le_right _ _
    omega
  rw [← hEq, List.getD_eq_getElem _ _ hlt]
  exact List.getElem_mem hlt

/-- Claim C3: over any finite sequence of `Observe` and `Notify` calls
on one registry, the channels returned by the `Observe` calls (over the
same or different keys) are pairwise distinct. -/
theorem observe_returns_pairwise_distinct_channels (ops : List Op) :
    (((runTrace NewConcurrentObservable ops).2).map (fun p => p.2)).Nodup :=
  runTrace_channels_nodup ops NewConcurrentObservable

/-- Claim C4: after any trace from a fresh registry, a channel `c`
returned by an `Observe` call whose key rendered to `Stringer.str b` is
among the channels `Notify` on key `a` dispatches to exactly when the
two keys have the same rendered text (regardless of the underlying key
types `α`, `β`); under every schedule each actual send target of that
`Notify` is a channel that was registered by an `Observe` call whose key
rendered to `a`'s text; and two keys with equal rendered text are
treated identically by both `Observe` and `Notify`. -/
theorem notify_key_isolation {α β : Type} [Stringer α] [Stringer β]
    (ops : List Op) (a : α) (b : β) (c : GoChan)
    (hmem : (Stringer.str b, c) ∈ (runTrace NewConcurrentObservable ops).2) :
    (c ∈ (Notify (runTrace NewConcurrentObservable ops).1 a).1
       ↔ Stringer.str a = Stringer.str b)
  ∧ (∀ r c1, c1 ∈ sendTargets (Notify (runTrace NewConcurrentObservable ops).1 a).1 r
       → (Stringer.str a, c1) ∈ (runTrace NewConcurrentObservable ops).2)
  ∧ (Stringer.str a = Stringer.str b
       → Observe (runTrace NewConcurrentObservable ops).1 a
           = Observe (runTrace NewConcurrentObservable ops).1 b
         ∧ Notify (runTrace NewConcurrentObservable ops).1 a
           = Notify (runTrace NewConcurrentObservable ops).1 b) := by
  refine ⟨⟨fun hin => ?_, fun hEq => ?_⟩, fun r c1 hc1 => ?_, fun hEq => ?_⟩
  · rw [Notify_fst] at hin
    have hev := mem_observers_mem_events ops (Stringer.str a) c hin
    have hnd := runTrace_channels_nodup ops NewConcurrentObservable
    have := List.inj_on_of_nodup_map hnd hev hmem rfl
    exact congrArg Prod.fst this
  · rw [Notify_fst, hEq]
    exact mem_events_mem_observers ops (Stringer.str b) c hmem
  · rw [Notify_fst] at hc1
    have hin := sendTargets_mem _ r c1 hc1
    exact mem_observers_mem_events ops (Stringer.str a) c1 hin
  · constructor
    · simp [Observe, hEq]
    · simp [Notify, hEq]

/-- Witness for `notify_key_isolation`: one `Observe` on key text
`"x"`, with both abstract keys the plain key `"x"`. -/
theorem notify_key_isolation_witness :
    ((Stringer.str (PlainKey.mk "x"), makeChan 0)
        ∈ (runTrace NewConcurrentObservable [Op.observe "x"]).2)
  ∧ (makeChan 0
       ∈ (Notify (runTrace NewConcurrentObservable [Op.observe "x"]).1
            (PlainKey.mk "x")).1
       ↔ Stringer.str (PlainKey.mk "x") = Stringer.str (PlainKey.mk "x")) :=
  ⟨by decide,
   (notify_key_isolation [Op.observe "x"] (PlainKey.mk "x") (PlainKey.mk "x")
     (makeChan 0) (by decide)).1⟩

/-- Claim C6: starting from the constructor's empty registry, after any
finite sequence of `Observe`/`Notify` calls, every channel found in the
mapping under key text `t` was returned by a prior `Observe` call whose
key rendered to `t`, and by exactly one `Observe` call of the whole
trace. -/
theorem channel_from_unique_observe (ops : List Op) (t : String) (c : GoChan)
    (h : c ∈ (runTrace NewConcurrentObservable ops).1.observers t) :
    (t, c) ∈ (runTrace NewConcurrentObservable ops).2
  ∧ (((runTrace NewConcurrentObservable ops).2).map (fun p => p.2)).count c = 1 := by
  have hev := mem_observers_mem_events ops t c h
  refine ⟨hev, ?_⟩
  have hnd := runTrace_channels_nodup ops NewConcurrentObservable
  have hc : c ∈ ((runTrace NewConcurrentObservable ops).2).map (fun p => p.2) :=
    List.mem_map.mpr ⟨(t, c), hev, rfl⟩
  exact List.count_eq_one_of_mem hnd hc

/-- Witness for `channel_from_unique_observe`: one `Observe` on `"x"`. -/
theorem channel_from_unique_observe_witness :
    (makeChan 0 ∈ (runTrace NewConcurrentObservable [Op.observe "x"]).1.observers "x")
  ∧ (("x", makeChan 0) ∈ (runTrace NewConcurrentObservable [Op.observe "x"]).2
      ∧ (((runTrace NewConcurrentObservable [Op.observe "x"]).2).map
            (fun p => p.2)).count (makeChan 0) = 1) :=
  ⟨by decide,
   channel_from_unique_observe [Op.observe "x"] "x" (makeChan 0) (by decide)⟩

/-- Claim C5: on every reachable registry, `Observe` returns the freshly
allocated zero-capacity channel, appends exactly that channel at the end
of the entry for the key's rendered text (creating the entry if it was
absent, i.e. extending the empty slice), leaves every other entry
unchanged, and the returned channel is new: it occurs in no entry of the
pre-state. -/
theorem observe_appends_fresh_channel {α : Type} [Stringer α]
    (ops : List Op) (k : α) :
    ((Observe (runTrace NewConcurrentObservable ops).1 k).1
        = makeChan (runTrace NewConcurrentObservable ops).1.nextChan)
  ∧ ((Observe (runTrace NewConcurrentObservable ops).1 k).1.cap = 0)
  ∧ (∀ t, (Observe (runTrace NewConcurrentObservable ops).1 k).2.observers t
        = (runTrace NewConcurrentObservable ops).1.observers t
          ++ (if t = Stringer.str k
                then [(Observe (runTrace NewConcurrentObservable ops).1 k).1]
                else []))
  ∧ (∀ t, (Observe (runTrace NewConcurrentObservable ops).1 k).1
        ∉ (runTrace NewConcurrentObservable ops).1.observers t) := by
  refine ⟨rfl, rfl, fun t => ?_, fun t hin => ?_⟩
  · rw [Observe_snd_observers, Observe_fst]
    by_cases hk : t = Stringer.str k <;> simp [hk]
  · rw [Observe_fst] at hin
    have hev := mem_observers_mem_events ops t _ hin
    have hb := runTrace_events_id_bounds ops NewConcurrentObservable _ hev
    simp only [makeChan] at hb
    omega

/-- Claim C1, evaluated at a failing input: build the registry by two
`Observe` calls on key `"x"`, then `Notify` key `"x"`.  The dispatch
loop ranges over both registered channels and spawns two goroutines, but
both closures read the single shared loop variable; under the schedule
in which both goroutines run only after the loop has finished (`r` is
constantly 2), both sends target the second channel: the first channel
is scheduled to receive no `true` at all and the second to receive two,
refuting one-send-per-registered-channel.  Under the intended schedule
`r i = i` each channel is targeted exactly once. -/
theorem notify_loop_capture_starves_channel :
    ((Notify (runTrace NewConcurrentObservable
        [Op.observe "x", Op.observe "x"]).1 (PlainKey.mk "x")).1
      = [makeChan 0, makeChan 1])
  ∧ makeChan 0 ≠ makeChan 1
  ∧ sendTargets [makeChan 0, makeChan 1] (fun _ => 2)
      = [makeChan 1, makeChan 1]
  ∧ (sendTargets [makeChan 0, makeChan 1] (fun _ => 2)).count (makeChan 0) = 0
  ∧ (sendTargets [makeChan 0, makeChan 1] (fun _ => 2)).count (makeChan 1) = 2
  ∧ sendTargets [makeChan 0, makeChan 1] (fun i => i)
      = [makeChan 0, makeChan 1] := by
  refine ⟨by decide, by decide, by decide, by decide, by decide, by decide⟩

/-- Claim C2, evaluated at a failing input: two `Observe` calls on key
text `"x"` run concurrently against the fresh registry.  Each call locks
only its private copy of `ObserverLock` (value receiver), so the two
read-append-write bodies interleave on the shared map; under the
interleaving read₁, read₂, write₁, write₂ the second write overwrites
the first and the channel returned to the first caller is no longer in
the mapping — a lost subscription, refuting the serialization claim. -/
theorem racy_observe_loses_subscription :
    ((racyObservePair NewConcurrentObservable "x").1
       ≠ (racyObservePair NewConcurrentObservable "x").2.1)
  ∧ (racyObservePair NewConcurrentObservable "x").2.2.observers "x"
      = [makeChan 1]
  ∧ (racyObservePair NewConcurrentObservable "x").1
      ∉ (racyObservePair NewConcurrentObservable "x").2.2.observers "x" := by
  refine ⟨by decide, by decide, by decide⟩
